import Mathlib

/-!
Verification development for the compile pipeline of a remote compilation
broker (Compiler Explorer).  The definitions below are a shallow embedding of
the JavaScript sources: `lib/base-compiler.js` (the compiler driver),
`lib/exec.js` (process runner and sandbox), the compile HTTP handler and the
top-level registry builder (`app.js`).  Stateful, callback-driven code is
embedded as explicit state passing: a process execution is a fold over the
stream/timeout events delivered to the handlers registered in `execute`, and
the promise chain of `Compile.prototype.compile` is a sequence of pure
updates, with every external effect (the child process, `objdump`, `stat`,
the sandbox, the demangler) supplied by an explicit `World` of oracle
results.
-/

namespace CE

/-- A parsed output line record `\x7btext\x7d` as produced by `utils.parseOutput`. -/
structure OutputLine where
  text : String
  deriving DecidableEq, Repr

/-- Split a character list on a separator character, JS `String.split`
style: the empty input yields one empty group. -/
def splitOnChar (sep : Char) : List Char → List (List Char)
  | [] => [[]]
  | c :: rest =>
    match splitOnChar sep rest with
    | [] => [[]]
    | grp :: groups =>
      if c = sep then [] :: grp :: groups else (c :: grp) :: groups

/-- JS `s.split(sep)` for a one-character separator. -/
def jsSplit (sep : Char) (s : String) : List String :=
  (splitOnChar sep s.toList).map (fun l => String.mk l)

/-- Whether `needle` occurs inside `hay` (JS `String.includes`). -/
def isInfixList (needle : List Char) : List Char → Bool
  | [] => needle.isEmpty
  | c :: rest => needle.isPrefixOf (c :: rest) || isInfixList needle rest

def strContains (hay needle : String) : Bool :=
  isInfixList needle.toList hay.toList

def strStartsWith (s p : String) : Bool :=
  p.toList.isPrefixOf s.toList

/-- Modelled from the spec: `utils.splitLines` is not under src/.  The spec's
output records and the include screen both work on the source split into
lines; we split on the newline character. -/
def utilsSplitLines (s : String) : List String :=
  jsSplit '\n' s

/-- Modelled from the spec: `utils.parseOutput` is not under src/.  The spec
says stdout/stderr are "arrays parsed into `\x7btext, source?\x7d` records"; we keep
one record per non-empty line.  No claim depends on the `source` annotation. -/
def parseOutput (s : String) : List OutputLine :=
  (utilsSplitLines s).filterMap (fun l => if l = "" then none else some ⟨l⟩)

/-! ## Process Runner (`execute` in lib/exec.js) -/

/-- The options record taken by `execute`.  `none` plays the role of an
absent JS field; `maxOutput` and `timeoutMs` go through `x || default`,
which treats both `undefined` and `0` as unset. -/
structure ExecOptions where
  maxOutput : Option Nat
  timeoutMs : Option Nat
  wrapper : Option String
  input : Option String
  deriving DecidableEq, Repr

/-- JS `v || d` on an optional numeric field: `undefined` and `0` both give
the default. -/
def jsOrNat (v : Option Nat) (d : Nat) : Nat :=
  match v with
  | none => d
  | some 0 => d
  | some n => n

/-- Effective output cap: `options.maxOutput || 1024 * 1024`. -/
def effMaxOutput (o : ExecOptions) : Nat :=
  jsOrNat o.maxOutput (1024 * 1024)

/-- Effective timeout: `options.timeoutMs || 0`. -/
def effTimeoutMs (o : ExecOptions) : Nat :=
  jsOrNat o.timeoutMs 0

/-- Wrapper handling: `if (options.wrapper) \x7b args.unshift(command); command =
options.wrapper; \x7d`. -/
def effectiveCommand (o : ExecOptions) (command : String) (args : List String) :
    String × List String :=
  match o.wrapper with
  | some w => if w ≠ "" then (w, command :: args) else (command, args)
  | none => (command, args)

/-- The literal truncation marker appended by `setupStream`. -/
def truncMarker : String := "\n[Truncated]"

/-- The literal message appended to stderr by the timeout handler. -/
def timeoutMsg : String := "\nKilled - processing time exceeded"

/-- An event delivered to the handlers `execute` registers: a `data` callback
on stdout or stderr, or the `setTimeout` timer firing. -/
inductive RunEv where
  | outData (s : String)
  | errData (s : String)
  | timeoutFired
  deriving DecidableEq, Repr

/-- The mutable state accumulated by `execute`'s closures: the `streams`
record (`stdout`, `stderr`, `truncated`) together with the `okToCache` local.
`killCount` counts invocations of `kill()` and `markerCount` counts
appends of the truncation marker; both are ghost instrumentation. -/
structure StreamsState where
  stdout : String
  stderr : String
  truncated : Bool
  okToCache : Bool
  killCount : Nat
  markerCount : Nat
  deriving DecidableEq, Repr

def initialStreams : StreamsState :=
  { stdout := "", stderr := "", truncated := false, okToCache := true,
    killCount := 0, markerCount := 0 }

/-- The `data` handler installed by `setupStream` (`isOut` selects which
stream the handler belongs to).  Mirrors: bail if already truncated; if the
accumulated stream already exceeds `maxOutput`, append the marker, set
`truncated`, call `kill()`; otherwise append the chunk. -/
def onData (maxOutput : Nat) (st : StreamsState) (isOut : Bool) (data : String) :
    StreamsState :=
  if st.truncated then st
  else
    let cur := if isOut then st.stdout else st.stderr
    if cur.length > maxOutput then
      let cur := cur ++ truncMarker
      { st with
        stdout := if isOut then cur else st.stdout
        stderr := if isOut then st.stderr else cur
        truncated := true
        killCount := st.killCount + 1
        markerCount := st.markerCount + 1 }
    else
      { st with
        stdout := if isOut then cur ++ data else st.stdout
        stderr := if isOut then st.stderr else cur ++ data }

/-- The `setTimeout` handler: clear `okToCache`, call `kill()`, append the
kill message to stderr. -/
def onTimeout (st : StreamsState) : StreamsState :=
  { st with
    okToCache := false
    killCount := st.killCount + 1
    stderr := st.stderr ++ timeoutMsg }

def runStep (maxOutput : Nat) (st : StreamsState) : RunEv → StreamsState
  | .outData s => onData maxOutput st true s
  | .errData s => onData maxOutput st false s
  | .timeoutFired => onTimeout st

/-- The state of `execute`'s closures after the given events have been
delivered. -/
def executeStreams (o : ExecOptions) (trace : List RunEv) : StreamsState :=
  trace.foldl (runStep (effMaxOutput o)) initialStreams

/-- The value `execute` resolves with on `close(code, sig)`: note the record
has exactly the fields `status`, `signal`, `stdout`, `stderr`, `okToCache`
— no `truncated` field. -/
structure ExecResult where
  status : Option Int
  signal : Option String
  stdout : String
  stderr : String
  okToCache : Bool
  deriving DecidableEq, Repr

/-- `execute(command, args, options)`, given the events the child delivered
before closing with exit code `code` and terminating signal `sig`. -/
def executeModel (o : ExecOptions) (trace : List RunEv) (code : Option Int)
    (sig : Option String) : ExecResult :=
  let st := executeStreams o trace
  { status := code, signal := sig, stdout := st.stdout, stderr := st.stderr,
    okToCache := st.okToCache }

/-! ## Preprocessor-inclusion screen (`Compile.prototype.checkSource`)

The source regex is
`/^\s*#\s*i(nclude|mport)(_next)?\s+["<"](\/|.*\.\.)/`
(the character class `["<"]` is just the two characters `"` and `<`).
We embed it as a hand-written matcher over the line's characters. -/

/-- JS `\s` on the ASCII range (the unicode space classes are irrelevant to
the sources handled here). -/
def isSpaceJS (c : Char) : Bool :=
  c = ' ' || c = '\t' || c = '\n' || c = '\r' || c = '\x0b' || c = '\x0c'

/-- A JS regex line terminator, which `.` does not match. -/
def isLineTerm (c : Char) : Bool :=
  c = '\n' || c = '\r'

/-- Matcher for `.*\.\.` anchored at the current position: some prefix of
non-terminators followed by two dots. -/
def matchDots : List Char → Bool
  | '.' :: '.' :: _ => true
  | c :: rest => !isLineTerm c && matchDots rest
  | [] => false

/-- After `#\s*i`: accept `nclude` or `mport`, returning the rest. -/
def afterIncludeKeyword (l : List Char) : Option (List Char) :=
  if ['n', 'c', 'l', 'u', 'd', 'e'].isPrefixOf l then some (l.drop 6)
  else if ['m', 'p', 'o', 'r', 't'].isPrefixOf l then some (l.drop 5)
  else none

/-- Skip the optional `_next`. -/
def skipNext (l : List Char) : List Char :=
  if ['_', 'n', 'e', 'x', 't'].isPrefixOf l then l.drop 5 else l

/-- The tail of the regex after the opening `"` or `<`: either an immediate
`/` or `.*\.\.`. -/
def matchIncludePath (l : List Char) : Bool :=
  match l with
  | '/' :: _ => true
  | _ => matchDots l

/-- Whether a source line matches the inclusion regex. -/
def includeReMatch (line : String) : Bool :=
  let cs := line.toList.dropWhile isSpaceJS
  match cs with
  | '#' :: rest =>
    match rest.dropWhile isSpaceJS with
    | 'i' :: rest2 =>
      match afterIncludeKeyword rest2 with
      | some rest3 =>
        let rest4 := skipNext rest3
        match rest4 with
        | c :: rest5 =>
          if isSpaceJS c then
            match rest5.dropWhile isSpaceJS with
            | q :: rest6 => (q = '"' || q = '<') && matchIncludePath rest6
            | [] => false
          else false
        | [] => false
      | none => false
    | _ => false
  | _ => false

/-- The per-line diagnostic pushed by `checkSource` (0-based index `i`). -/
def includeDiagnostic (i : Nat) : String :=
  "<stdin>:" ++ toString (i + 1) ++ ":1: no absolute or relative includes please"

/-- The `failed` array accumulated by `checkSource`'s `forEach`. -/
def includeFailuresAux : Nat → List String → List String
  | _, [] => []
  | i, l :: rest =>
    if includeReMatch l then includeDiagnostic i :: includeFailuresAux (i + 1) rest
    else includeFailuresAux (i + 1) rest

def includeFailures (source : String) : List String :=
  includeFailuresAux 0 (utilsSplitLines source)

/-- `Compile.prototype.checkSource`: `none` when the source is acceptable,
otherwise the newline-joined diagnostics. -/
def checkSource (source : String) : Option String :=
  let failed := includeFailures source
  if failed.isEmpty then none else some ("\n".intercalate failed)

/-! ## Filters

The request's `filters` is a JS object with boolean-valued keys; `delete`
removes a key.  We model it as an association list with JS truthiness
lookup. -/

abbrev Filters : Type := List (String × Bool)

/-- JS truthiness read `filters[k]`: an absent key is falsy. -/
def fget : Filters → String → Bool
  | [], _ => false
  | p :: rest, k => if p.1 = k then p.2 else fget rest k

/-- JS `filters[k] = v`: overwrite in place, or append a new key. -/
def fset (f : Filters) (k : String) (v : Bool) : Filters :=
  if f.any (fun p => p.1 = k) then
    f.map (fun p => if p.1 = k then (k, v) else p)
  else
    f ++ [(k, v)]

/-- JS `delete filters[k]`. -/
def fdel (f : Filters) (k : String) : Filters :=
  f.filter (fun p => p.1 ≠ k)

/-- `Compile.prototype.getDefaultFilters`. -/
def getDefaultFilters : Filters :=
  [("intel", true), ("commentOnly", true), ("directives", true),
   ("labels", true), ("optOutput", false)]

/-- Filter selection on the JSON-style request path of
`CompileHandler.handler`: `requestOptions.filters ||
compiler.getDefaultFilters()`. -/
def jsonRequestFilters (requestFilters : Option Filters) : Filters :=
  match requestFilters with
  | some f => f
  | none => getDefaultFilters

/-- Filter selection on the API-style request path of
`CompileHandler.handler`.  The three query parameters arrive as strings,
with `""` standing for an absent parameter exactly as after the JS
`req.query.x || ""` (and `if (req.query.filters)` treats `""` as absent). -/
def apiRequestFilters (queryFilters addFilters removeFilters : String) : Filters :=
  let filters :=
    if queryFilters ≠ "" then
      (jsSplit ',' queryFilters).foldl (fun m f => fset m f true) []
    else getDefaultFilters
  let filters := (jsSplit ',' addFilters).foldl (fun m f => fset m f true) filters
  (jsSplit ',' removeFilters).foldl (fun m f => fdel m f) filters

/-! ## Compiler descriptor and argument assembly -/

/-- The compiler descriptor, as built by `compilerConfigFor` in the registry
and later mutated by `initialise` (which stores the discovered `version` on
it).  String-valued properties default to `""` when unset, which is exactly
what their JS truthiness checks test; `exe` is nulled out for remote
descriptors and `remote` records the peer URL.  `supportsOptOutput` and
`optArg` are added by the argument-parser discovery step. -/
structure Descriptor where
  id : String
  exe : Option String
  name : String
  options : String
  demangler : String
  objdumper : String
  intelAsm : String
  supportsBinary : Bool
  supportsExecute : Bool
  supportsOptOutput : Bool
  optArg : String
  postProcess : List String
  remote : Option String
  version : String
  deriving DecidableEq, Repr

/-- The request's backend options (`\x7bproduceAst?, produceOptInfo?\x7d`). -/
structure BackendOptions where
  produceAst : Bool
  produceOptInfo : Bool
  deriving DecidableEq, Repr

/-- `Compile.prototype.optionsForFilter`. -/
def optionsForFilter (d : Descriptor) (filters : Filters) (outputFilename : String) :
    List String :=
  let options := ["-g", "-o", outputFilename]
  let options :=
    if d.intelAsm ≠ "" && fget filters "intel" && !fget filters "binary" then
      options ++ jsSplit ' ' d.intelAsm
    else options
  if fget filters "binary" then
    if !fget filters "link" then options ++ ["-c"] else options
  else
    options ++ ["-S"]

/-- `Compile.prototype.prepareArguments`.  Note the placement of the
opt-record flag: right after the descriptor's default options, before the
user options. -/
def prepareArguments (d : Descriptor) (userOptions : List String) (filters : Filters)
    (bo : BackendOptions) (inputFilename outputFilename : String) : List String :=
  let options := optionsForFilter d filters outputFilename
  let options := if d.options ≠ "" then options ++ jsSplit ' ' d.options else options
  let options :=
    if d.supportsOptOutput && bo.produceOptInfo then options ++ [d.optArg] else options
  options ++ userOptions ++ [inputFilename]

/-- The argument order as the claim words it (refinement reference, not a
translation of the source): the opt-record flag is appended after the user
options. -/
def prepareArgumentsClaimed (d : Descriptor) (userOptions : List String)
    (filters : Filters) (bo : BackendOptions) (inputFilename outputFilename : String) :
    List String :=
  ["-g", "-o", outputFilename]
  ++ (if d.intelAsm ≠ "" && fget filters "intel" && !fget filters "binary" then
        jsSplit ' ' d.intelAsm else [])
  ++ (if fget filters "binary" then (if fget filters "link" then [] else ["-c"])
      else ["-S"])
  ++ (if d.options ≠ "" then jsSplit ' ' d.options else [])
  ++ userOptions
  ++ (if d.supportsOptOutput && bo.produceOptInfo then [d.optArg] else [])
  ++ [inputFilename]

/-! ## The cache key (`JSON.stringify` fingerprint) -/

def lbrace : String := "\x7b"

def rbrace : String := "\x7d"

/-- JSON string escaping for the characters that occur in our inputs. -/
def jsonEscapeChar (c : Char) : String :=
  if c = '"' then "\\\""
  else if c = '\\' then "\\\\"
  else if c = '\n' then "\\n"
  else if c = '\t' then "\\t"
  else if c = '\r' then "\\r"
  else String.singleton c

def jsonStr (s : String) : String :=
  "\"" ++ String.join (s.toList.map jsonEscapeChar) ++ "\""

def jsonOfOptString (v : Option String) : String :=
  match v with
  | none => "null"
  | some s => jsonStr s

def jsonOfBool (b : Bool) : String :=
  if b then "true" else "false"

def jsonOfStrList (xs : List String) : String :=
  "[" ++ ",".intercalate (xs.map jsonStr) ++ "]"

/-- `JSON.stringify` of the descriptor, fields in their insertion order.
The discovered `version` is present: `initialise` stored it on the very
object that `compile` serializes. -/
def jsonOfDescriptor (d : Descriptor) : String :=
  lbrace
  ++ "\"id\":" ++ jsonStr d.id
  ++ ",\"exe\":" ++ jsonOfOptString d.exe
  ++ ",\"name\":" ++ jsonStr d.name
  ++ ",\"options\":" ++ jsonStr d.options
  ++ ",\"demangler\":" ++ jsonStr d.demangler
  ++ ",\"objdumper\":" ++ jsonStr d.objdumper
  ++ ",\"intelAsm\":" ++ jsonStr d.intelAsm
  ++ ",\"supportsBinary\":" ++ jsonOfBool d.supportsBinary
  ++ ",\"supportsExecute\":" ++ jsonOfBool d.supportsExecute
  ++ ",\"supportsOptOutput\":" ++ jsonOfBool d.supportsOptOutput
  ++ ",\"optArg\":" ++ jsonStr d.optArg
  ++ ",\"postProcess\":" ++ jsonOfStrList d.postProcess
  ++ ",\"remote\":" ++ jsonOfOptString d.remote
  ++ ",\"version\":" ++ jsonStr d.version
  ++ rbrace

def jsonOfFilters (f : Filters) : String :=
  lbrace
  ++ ",".intercalate (f.map (fun p => jsonStr p.1 ++ ":" ++ jsonOfBool p.2))
  ++ rbrace

def jsonOfBackendOptions (bo : BackendOptions) : String :=
  lbrace
  ++ "\"produceAst\":" ++ jsonOfBool bo.produceAst
  ++ ",\"produceOptInfo\":" ++ jsonOfBool bo.produceOptInfo
  ++ rbrace

/-- The cache key built at the top of `Compile.prototype.compile`:
`JSON.stringify(\x7bcompiler, source, options, backendOptions, filters\x7d)`. -/
def fingerprint (d : Descriptor) (source : String) (options : List String)
    (bo : BackendOptions) (filters : Filters) : String :=
  lbrace
  ++ "\"compiler\":" ++ jsonOfDescriptor d
  ++ ",\"source\":" ++ jsonStr source
  ++ ",\"options\":" ++ jsonOfStrList options
  ++ ",\"backendOptions\":" ++ jsonOfBackendOptions bo
  ++ ",\"filters\":" ++ jsonOfFilters filters
  ++ rbrace

/-- The descriptor with the discovered version forgotten, used to state the
claim that the fingerprint does not depend on it. -/
def eraseVersion (d : Descriptor) : Descriptor :=
  { d with version := "" }

/-- The binary-capability clamp at the top of `compile`:
`if (filters.binary && !self.compiler.supportsBinary) delete filters.binary`. -/
def clearBinary (d : Descriptor) (f : Filters) : Filters :=
  if fget f "binary" && !d.supportsBinary then fdel f "binary" else f

/-! ## Compile results and the driver pipeline -/

/-- The dynamic type of `result.asm` along the pipeline: a raw string, the
structured array produced by `asm.process`, or the `\x7btext: ...\x7d` wrapper
used on the non-cacheable path. -/
inductive AsmVal where
  | raw (s : String)
  | processed (ls : List OutputLine)
  | wrapped (text : String)
  deriving DecidableEq, Repr

/-- `execResult.stderr` is a parsed array on the success path but the raw
error message string on the sandbox-failure path. -/
inductive StderrVal where
  | parsed (ls : List OutputLine)
  | raw (s : String)
  deriving DecidableEq, Repr

/-- The value stored into `result.execResult` by `execBinary`. -/
structure ExecResultField where
  stdout : List OutputLine
  stderr : StderrVal
  status : Option Int
  signal : Option String
  deriving DecidableEq, Repr

/-- The structured compile result assembled by `Compile.prototype.compile`. -/
structure CompileResult where
  status : Option Int
  signal : Option String
  stdout : List OutputLine
  stderr : List OutputLine
  okToCache : Bool
  asm : AsmVal
  outputFilePath : Option String
  hasOptOutput : Bool
  optOutput : Option (List String)
  hasAstOutput : Bool
  astOutput : Option String
  supportsCfg : Bool
  execResult : Option ExecResultField
  dirPath : Option String
  deriving DecidableEq, Repr

/-- The error carried by a rejected sandbox promise. -/
structure SbError where
  message : String
  deriving DecidableEq, Repr

/-- Outcome of `exec.sandbox`: resolution with a runner-style result, or
rejection. -/
inductive SandboxOutcome where
  | ok (r : ExecResult)
  | err (e : SbError)
  deriving DecidableEq, Repr

/-- Every external effect of one compile, supplied as oracle results: the
main compiler run, the objdump run, the `stat`/`readFile` of the output
file, the post-process shell pipeline, the sandbox, the demangler, the
`.opt.yaml` probe, the filtered opt records, and the AST probe (whose whole
computation, `generateAST`, is a second compiler invocation). -/
structure World where
  dirPath : String
  runner : ExecResult
  objdumpRes : ExecResult
  outputStat : Option Nat
  outputContents : String
  postRes : ExecResult
  sandboxRes : SandboxOutcome
  demangleOut : String
  optYamlExists : Bool
  optRecords : List String
  astResult : String
  deriving DecidableEq, Repr

/-- `path.join` for our purposes. -/
def pathJoin (a b : String) : String := a ++ "/" ++ b

/-- `util.format("%d", v)` for a possibly-null numeric value. -/
def optIntStr (v : Option Int) : String :=
  match v with
  | some n => toString n
  | none => "NaN"

/-- `Compile.prototype.execBinary`: on resolution attach the parsed streams;
on rejection attach `\x7bstdout: [], stderr: e.message, status: null,
signal: null\x7d`.  Either way the promise resolves with the main result. -/
def execBinary (result : CompileResult) (sandboxRes : SandboxOutcome) : CompileResult :=
  match sandboxRes with
  | .ok er =>
    let er' : ExecResultField :=
      { stdout := parseOutput er.stdout, stderr := .parsed (parseOutput er.stderr),
        status := er.status, signal := er.signal }
    { result with execResult := some er' }
  | .err e =>
    let er' : ExecResultField :=
      { stdout := [], stderr := .raw e.message, status := none, signal := none }
    { result with execResult := some er' }

/-- The `.then` continuation of `Compile.prototype.objdump`. -/
def objdumpUpdate (result : CompileResult) (objResult : ExecResult) : CompileResult :=
  if objResult.signal.isSome then
    { result with asm := .raw ("<objdump failed due to " ++ objResult.signal.getD "" ++ ">") }
  else if objResult.status ≠ some 0 then
    { result with asm := .raw ("<objdump exited with status " ++ optIntStr objResult.status ++ ">") }
  else
    { result with asm := .raw objResult.stdout }

/-- `Compile.prototype.handlePostProcessResult`. -/
def handlePostProcessResult (result : CompileResult) (postResult : ExecResult) :
    CompileResult :=
  if postResult.signal.isSome then
    { result with asm := .raw ("<Error during post processing: " ++ postResult.signal.getD "" ++ ">") }
  else if postResult.status ≠ some 0 then
    { result with asm := .raw ("<Error during post processing: status " ++ optIntStr postResult.status ++ ">") }
  else
    { result with asm := .raw postResult.stdout }

/-- `Compile.prototype.postProcess`.  Returns the mutated result, the value
the opt-record promise resolves with, and whether the sandbox execution was
started (the `Promise.all` of the source joins the same three branches).
`supportsObjdump()` is `objdumper !== ""`. -/
def postProcessModel (d : Descriptor) (w : World) (result : CompileResult)
    (filters : Filters) (maxAsmSize : Nat) : CompileResult × Option (List String) × Bool :=
  let optOutput := if result.hasOptOutput then some w.optRecords else none
  let result :=
    if fget filters "binary" && d.objdumper ≠ "" then
      objdumpUpdate result w.objdumpRes
    else
      match w.outputStat with
      | none => { result with asm := .raw "<No output file>" }
      | some size =>
        if size ≥ maxAsmSize then
          { result with asm := .raw ("<No output: generated assembly was too large ("
              ++ toString size ++ " > " ++ toString maxAsmSize ++ " bytes)>") }
        else if (d.postProcess.filter (fun s => s ≠ "")).length > 0 then
          handlePostProcessResult result w.postRes
        else
          { result with asm := .raw w.outputContents }
  let sandboxRan :=
    d.supportsExecute && fget filters "binary" && fget filters "link" && fget filters "execute"
  let result := if sandboxRan then execBinary result w.sandboxRes else result
  (result, optOutput, sandboxRan)

/-- The initial result record delivered by `runCompiler` (streams parsed
into records; the remaining fields are not present yet and carry their
defaults). -/
def runCompilerModel (runner : ExecResult) : CompileResult :=
  { status := runner.status, signal := runner.signal,
    stdout := parseOutput runner.stdout, stderr := parseOutput runner.stderr,
    okToCache := runner.okToCache,
    asm := .raw "", outputFilePath := none, hasOptOutput := false, optOutput := none,
    hasAstOutput := false, astOutput := none, supportsCfg := false,
    execResult := none, dirPath := none }

/-- The `compileToAsmPromise` chain: prepare arguments, run the compiler and
the AST probe, and on a clean exit run `postProcess`.  On a signal or a
non-zero status the asm is replaced by the sentinel and post-processing is
skipped. -/
def compileJob (d : Descriptor) (w : World) (userOptions : List String)
    (filters : Filters) (bo : BackendOptions) (compileFilename : String)
    (maxAsmSize : Nat) : CompileResult × Option (List String) × Bool :=
  let inputFilename := pathJoin w.dirPath compileFilename
  let outputFilename := pathJoin w.dirPath "output"
  let options := prepareArguments d userOptions filters bo inputFilename outputFilename
  let options := options.filter (fun s => s ≠ "")
  let asmResult := runCompilerModel w.runner
  let astResult := if bo.produceAst then w.astResult else ""
  let asmResult := { asmResult with dirPath := some w.dirPath }
  if asmResult.signal.isSome || asmResult.status ≠ some 0 then
    ({ asmResult with asm := .raw "<Compilation failed>" }, none, false)
  else
    let asmResult := { asmResult with outputFilePath := some outputFilename,
                                      hasOptOutput := false }
    let asmResult :=
      if d.supportsOptOutput && options.contains "-fsave-optimization-record"
          && w.optYamlExists then
        { asmResult with hasOptOutput := true }
      else asmResult
    let asmResult :=
      if astResult ≠ "" then
        { asmResult with hasAstOutput := true, astOutput := some astResult }
      else asmResult
    postProcessModel d w asmResult filters maxAsmSize

/-- Modelled from the spec: the Assembly Cleaner (`./asm`, not under src/)
is a deterministic function of the raw asm text and the filter set,
producing `\x7btext, source?\x7d` records.  No claim depends on the cleaning
itself, so the model keeps one record per line. -/
def asmProcess (raw : String) (_filters : Filters) : List OutputLine :=
  (utilsSplitLines raw).map (fun l => ⟨l⟩)

/-- The raw string sitting in `result.asm` (always the `raw` constructor at
the points where the pipeline reads it back). -/
def asmRawText : AsmVal → String
  | .raw s => s
  | .processed ls => "\n".intercalate (ls.map (fun l => l.text))
  | .wrapped t => t

/-- Splice the demangler's output lines back into the structured asm
(`result.asm[i].text = lines[i]`; a missing line is JS `undefined`, modelled
as `""`). -/
def spliceDemangled (lines : List String) : Nat → List OutputLine → List OutputLine
  | _, [] => []
  | i, _ :: rest => ⟨lines.getD i ""⟩ :: spliceDemangled lines (i + 1) rest

/-- `Compile.prototype.postProcessAsm` (the demangling pass). -/
def postProcessAsmModel (d : Descriptor) (w : World) (result : CompileResult) :
    CompileResult :=
  if !result.okToCache then result
  else if d.demangler = "" then result
  else
    match result.asm with
    | .processed ls =>
      { result with asm := .processed (spliceDemangled (utilsSplitLines w.demangleOut) 0 ls) }
    | _ => result

/-- `Compile.prototype.isCfgCompiler`. -/
def isCfgCompiler (compilerVersion : String) : Bool :=
  strContains compilerVersion "clang" || strStartsWith compilerVersion "g++"

/-- The tail of the promise chain after `compileToAsmPromise`: process or
wrap the asm, attach opt output, demangle, and compute the CFG support
flag. -/
def finishResult (d : Descriptor) (w : World) (filters : Filters)
    (triple : CompileResult × Option (List String) × Bool) : CompileResult :=
  let result := triple.1
  let optOutput := triple.2.1
  let result :=
    if result.okToCache then
      { result with asm := .processed (asmProcess (asmRawText result.asm) filters) }
    else
      { result with asm := .wrapped (asmRawText result.asm), dirPath := none }
  let result :=
    if result.hasOptOutput then { result with optOutput := some (optOutput.getD []) }
    else result
  let result := if fget filters "demangle" then postProcessAsmModel d w result else result
  let result := { result with supportsCfg := false }
  let result :=
    if result.status = some 0 && !fget filters "binary" && isCfgCompiler d.version then
      { result with supportsCfg := true }
    else result
  result

/-- Modelled from the spec: the result cache (`compilation-env`, not under
src/) is a content-addressed in-memory store; `cacheGet` is keyed lookup
and `cachePut` inserts under the fingerprint. -/
def cacheLookup (cache : List (String × CompileResult)) (key : String) :
    Option CompileResult :=
  (cache.find? (fun p => p.1 = key)).map (fun p => p.2)

/-- The value `compile` settles with. -/
inductive CompileReply where
  | reject (msg : String)
  | done (r : CompileResult)
  deriving DecidableEq, Repr

/-- The observable outcome of one `Compile.prototype.compile` call:
the settled value, whether the cache was consulted, whether a job was
enqueued (and hence a child spawned), the `cachePut` performed (if any),
the cache contents afterwards, and whether the sandbox ran. -/
structure CompileOutcome where
  reply : CompileReply
  cacheConsulted : Bool
  enqueued : Bool
  cacheInsert : Option (String × CompileResult)
  finalCache : List (String × CompileResult)
  sandboxRan : Bool
  deriving DecidableEq, Repr

/-- Modelled from the spec for `env.findBadOptions` (not under src/): the
bad-option screen rejects any token in a configured forbidden set,
enumerating the offenders. -/
def findBadOptions (badList userOptions : List String) : List String :=
  userOptions.filter (fun o => o ∈ badList)

/-- `Compile.prototype.compile`, observed from the outside.  The screens run
first (options, then source), the binary capability is clamped, the
fingerprint is consulted, and only on a miss is the job enqueued; the final
`cachePut` happens exactly when `result.okToCache`. -/
def compileModel (d : Descriptor) (badList : List String)
    (cache : List (String × CompileResult)) (source : String)
    (userOptions : List String) (bo : BackendOptions) (filters : Filters)
    (compileFilename : String) (maxAsmSize : Nat) (w : World) : CompileOutcome :=
  let bad := findBadOptions badList userOptions
  if bad ≠ [] then
    { reply := .reject ("Bad options: " ++ ", ".intercalate bad),
      cacheConsulted := false, enqueued := false, cacheInsert := none,
      finalCache := cache, sandboxRan := false }
  else
    match checkSource source with
    | some err =>
      { reply := .reject err, cacheConsulted := false, enqueued := false,
        cacheInsert := none, finalCache := cache, sandboxRan := false }
    | none =>
      let filters := clearBinary d filters
      let key := fingerprint d source userOptions bo filters
      match cacheLookup cache key with
      | some cached =>
        { reply := .done cached, cacheConsulted := true, enqueued := false,
          cacheInsert := none, finalCache := cache, sandboxRan := false }
      | none =>
        let triple := compileJob d w userOptions filters bo compileFilename maxAsmSize
        let result := finishResult d w filters triple
        let insert := if result.okToCache then some (key, result) else none
        { reply := .done result, cacheConsulted := true, enqueued := true,
          cacheInsert := insert,
          finalCache := match insert with
            | some kv => kv :: cache
            | none => cache,
          sandboxRan := triple.2.2 }

/-! ## Registry peer fetch (`retryPromise`, `fetchRemote`, `recurseGetCompilers`) -/

/-- The HTTP request issued per attempt by `fetchRemote`. -/
structure HttpReq where
  hostname : String
  port : Nat
  path : String
  accept : String
  deriving DecidableEq, Repr

def remoteRequest (host : String) (port : Nat) : HttpReq :=
  { hostname := host, port := port, path := "/api/compilers",
    accept := "application/json" }

/-- `retryPromise`, with the outcome of the i-th attempt supplied by
`outcomes` (0-based).  `fails` is incremented after each failure and the
loop retries while `fails < maxFails`.  The second component is the number
of attempts made; the `fuel` argument bounds the recursion and is never
exhausted when it starts at `maxFails`. -/
def retryAux {E A : Type} (outcomes : Nat → Except E A) (maxFails : Nat) :
    Nat → Nat → Except E A × Nat
  | fuel, attempt =>
    match outcomes attempt with
    | .ok a => (.ok a, attempt + 1)
    | .error e =>
      if attempt + 1 < maxFails then
        match fuel with
        | 0 => (.error e, attempt + 1)
        | fuel' + 1 => retryAux outcomes maxFails fuel' (attempt + 1)
      else (.error e, attempt + 1)

def retryPromise {E A : Type} (outcomes : Nat → Except E A) (maxFails : Nat) :
    Except E A × Nat :=
  retryAux outcomes maxFails maxFails 0

/-- The per-descriptor rewrite applied to each JSON-decoded peer compiler:
`compiler.exe = null; compiler.remote = "http://" + host + ":" + port`. -/
def mapRemoteCompiler (host : String) (port : Nat) (c : Descriptor) : Descriptor :=
  { c with exe := none, remote := some ("http://" ++ host ++ ":" ++ toString port) }

/-- `fetchRemote(host, port, props)`: retry the GET, rewrite the decoded
descriptors, and on exhaustion catch the rejection and yield `[]`.  Returns
the contributed list and the number of attempts made. -/
def fetchRemote (host : String) (port : Nat)
    (outcomes : Nat → Except String (List Descriptor)) (proxyRetries : Nat) :
    List Descriptor × Nat :=
  let attempt := fun i => (outcomes i).map (fun cs => cs.map (mapRemoteCompiler host port))
  match retryPromise attempt proxyRetries with
  | (.ok cs, n) => (cs, n)
  | (.error _, n) => ([], n)

/-! ## Concrete fixtures used by witnesses and counterexamples -/

def noBackendOptions : BackendOptions :=
  { produceAst := false, produceOptInfo := false }

/-- A plain local gcc-style descriptor. -/
def gccDesc : Descriptor :=
  { id := "gcc", exe := some "/usr/bin/g++", name := "gcc", options := "",
    demangler := "", objdumper := "", intelAsm := "", supportsBinary := true,
    supportsExecute := true, supportsOptOutput := false, optArg := "",
    postProcess := [], remote := none, version := "g++ 5" }

/-- The same descriptor after discovering a different version string. -/
def gccDescV2 : Descriptor :=
  { gccDesc with version := "g++ 6" }

/-- A descriptor with an objdumper, for the binary/execute path. -/
def execDesc : Descriptor :=
  { gccDesc with objdumper := "objdump" }

/-- A descriptor that carries default options, an intel-asm switch and an
opt-record flag, for the argument-order claims. -/
def optDesc : Descriptor :=
  { gccDesc with
    options := "-Wall", intelAsm := "-mllvm --x86-asm-syntax=intel",
    supportsOptOutput := true, optArg := "-fsave-optimization-record" }

def emptyExecResult : ExecResult :=
  { status := some 0, signal := none, stdout := "", stderr := "", okToCache := true }

/-- A world whose main compile failed with exit status 1 and no timeout. -/
def failRunner : ExecResult :=
  { status := some 1, signal := none, stdout := "", stderr := "error: oops",
    okToCache := true }

def failWorld : World :=
  { dirPath := "/tmp/ce", runner := failRunner,
    objdumpRes := emptyExecResult, outputStat := none, outputContents := "",
    postRes := emptyExecResult, sandboxRes := .err { message := "boom" },
    demangleOut := "", optYamlExists := false, optRecords := [], astResult := "" }

/-- A world whose main compile succeeded cleanly. -/
def okWorld : World :=
  { failWorld with
    runner := emptyExecResult, outputStat := some 10,
    outputContents := "mov eax, 42" }

/-- Filters requesting a binary that is linked and executed. -/
def binExecFilters : Filters :=
  [("binary", true), ("link", true), ("execute", true)]

/-- Options of an execution with a 3-byte output cap and no timeout. -/
def capOptions : ExecOptions :=
  { maxOutput := some 3, timeoutMs := none, wrapper := none, input := none }

/-- Options of an execution with a 100ms timeout. -/
def timedOptions : ExecOptions :=
  { maxOutput := none, timeoutMs := some 100, wrapper := none, input := none }

/-- A world whose main compile was killed by the timeout. -/
def timeoutWorld : World :=
  { failWorld with
    runner := executeModel timedOptions [RunEv.timeoutFired] none (some "SIGTERM") }

/-- A concrete cached result, for the cache-hit witness. -/
def cachedResult : CompileResult :=
  { status := some 0, signal := none, stdout := [], stderr := [], okToCache := true,
    asm := .processed [⟨"mov eax, 42"⟩], outputFilePath := some "/tmp/ce/output",
    hasOptOutput := false, optOutput := none, hasAstOutput := false,
    astOutput := none, supportsCfg := true, execResult := none,
    dirPath := some "/tmp/ce" }

/-- An event trace whose first chunk alone exceeds a 3-byte cap. -/
def capTrace : List RunEv :=
  [RunEv.outData "AAAAAAAAAA", RunEv.outData "B"]

/-- A cache holding one entry under the fingerprint of a concrete request. -/
def hitCache : List (String × CompileResult) :=
  [(fingerprint gccDesc "int f;" [] noBackendOptions [], cachedResult)]

/-- A peer that refuses every connection attempt. -/
def downOutcomes : Nat → Except String (List Descriptor) :=
  fun _ => Except.error "connection refused"

/-- A peer that answers the first attempt with one compiler. -/
def upOutcomes : Nat → Except String (List Descriptor) :=
  fun i => if i = 0 then Except.ok [gccDesc] else Except.error "connection refused"

/-! ## Helper lemmas -/

theorem execBinary_okToCache (r : CompileResult) (s : SandboxOutcome) :
    (execBinary r s).okToCache = r.okToCache := by
  cases s <;> rfl

theorem objdumpUpdate_okToCache (r : CompileResult) (o : ExecResult) :
    (objdumpUpdate r o).okToCache = r.okToCache := by
  unfold objdumpUpdate
  split
  · rfl
  · split <;> rfl

theorem handlePostProcessResult_okToCache (r : CompileResult) (p : ExecResult) :
    (handlePostProcessResult r p).okToCache = r.okToCache := by
  unfold handlePostProcessResult
  split
  · rfl
  · split <;> rfl

theorem postProcessModel_okToCache (d : Descriptor) (w : World) (r : CompileResult)
    (f : Filters) (m : Nat) :
    (postProcessModel d w r f m).1.okToCache = r.okToCache := by
  unfold postProcessModel
  dsimp only
  split
  · rename_i hsb
    rw [execBinary_okToCache]
    split
    · rw [objdumpUpdate_okToCache]
    · split
      · rfl
      · split
        · rfl
        · split
          · rw [handlePostProcessResult_okToCache]
          · rfl
  · split
    · rw [objdumpUpdate_okToCache]
    · split
      · rfl
      · split
        · rfl
        · split
          · rw [handlePostProcessResult_okToCache]
          · rfl

theorem postProcessModel_sandboxRan (d : Descriptor) (w : World) (r : CompileResult)
    (f : Filters) (m : Nat) :
    (postProcessModel d w r f m).2.2 =
      (d.supportsExecute && fget f "binary" && fget f "link" && fget f "execute") := by
  rfl

theorem compileJob_okToCache (d : Descriptor) (w : World) (uo : List String)
    (f : Filters) (bo : BackendOptions) (cfn : String) (mas : Nat) :
    (compileJob d w uo f bo cfn mas).1.okToCache = w.runner.okToCache := by
  unfold compileJob
  dsimp only
  split
  · rfl
  · rw [postProcessModel_okToCache]
    repeat' split
    all_goals rfl

theorem postProcessAsmModel_okToCache (d : Descriptor) (w : World) (r : CompileResult) :
    (postProcessAsmModel d w r).okToCache = r.okToCache := by
  unfold postProcessAsmModel
  split
  · rfl
  · split
    · rfl
    · split <;> rfl

theorem finishResult_okToCache (d : Descriptor) (w : World) (f : Filters)
    (t : CompileResult × Option (List String) × Bool) :
    (finishResult d w f t).okToCache = t.1.okToCache := by
  unfold finishResult
  dsimp only
  repeat' split
  all_goals simp [postProcessAsmModel_okToCache]

theorem fget_fdel_self (f : Filters) (k : String) : fget (fdel f k) k = false := by
  induction f with
  | nil => rfl
  | cons hd tl ih =>
    by_cases h : hd.1 = k
    · simpa [fdel, List.filter_cons, h] using ih
    · simpa [fdel, List.filter_cons, h, fget] using ih

theorem fget_cons (p : String × Bool) (tl : Filters) (k : String) :
    fget (p :: tl) k = if p.1 = k then p.2 else fget tl k := rfl

theorem fget_fdel_other (f : Filters) (k k' : String) (h : k' ≠ k) :
    fget (fdel f k) k' = fget f k' := by
  induction f with
  | nil => rfl
  | cons hd tl ih =>
    unfold fdel at ih ⊢
    rw [List.filter_cons]
    by_cases h1 : hd.1 = k
    · have hp : ¬(decide (hd.1 ≠ k) = true) := by
        simp [h1]
      rw [if_neg hp]
      have h2 : ¬hd.1 = k' := by
        rw [h1]
        exact fun hc => h hc.symm
      rw [fget_cons, if_neg h2]
      exact ih
    · have hp : decide (hd.1 ≠ k) = true := by
        simp [h1]
      rw [if_pos hp, fget_cons, fget_cons]
      by_cases h2 : hd.1 = k'
      · rw [if_pos h2, if_pos h2]
      · rw [if_neg h2, if_neg h2]
        exact ih

theorem fget_mapSet_other (f : Filters) (k : String) (v : Bool) (k' : String)
    (h : k' ≠ k) :
    fget (f.map (fun p => if p.1 = k then (k, v) else p)) k' = fget f k' := by
  induction f with
  | nil => rfl
  | cons hd tl ih =>
    rw [List.map_cons]
    by_cases h1 : hd.1 = k
    · rw [if_pos h1, fget_cons, fget_cons]
      have hk : ¬(k, v).1 = k' := fun hc => h hc.symm
      have hh : ¬hd.1 = k' := by
        rw [h1]
        exact fun hc => h hc.symm
      rw [if_neg hk, if_neg hh]
      exact ih
    · rw [if_neg h1, fget_cons, fget_cons]
      by_cases h2 : hd.1 = k'
      · rw [if_pos h2, if_pos h2]
      · rw [if_neg h2, if_neg h2]
        exact ih

theorem fget_appendSet_other (f : Filters) (k : String) (v : Bool) (k' : String)
    (h : k' ≠ k) : fget (f ++ [(k, v)]) k' = fget f k' := by
  induction f with
  | nil =>
    show (if k = k' then v else fget [] k') = fget [] k'
    rw [if_neg (fun hc => h hc.symm)]
  | cons hd tl ih =>
    rw [List.cons_append, fget_cons, fget_cons]
    by_cases h2 : hd.1 = k'
    · rw [if_pos h2, if_pos h2]
    · rw [if_neg h2, if_neg h2]
      exact ih

theorem fget_fset_other (f : Filters) (k : String) (v : Bool) (k' : String)
    (h : k' ≠ k) : fget (fset f k v) k' = fget f k' := by
  unfold fset
  split
  · exact fget_mapSet_other f k v k' h
  · exact fget_appendSet_other f k v k' h

theorem clearBinary_binary_of_unsupported (d : Descriptor) (f : Filters)
    (h : d.supportsBinary = false) : fget (clearBinary d f) "binary" = false := by
  unfold clearBinary
  split
  · exact fget_fdel_self f "binary"
  · rename_i hc
    simp only [h, Bool.not_false, Bool.and_true] at hc
    simpa using hc

theorem clearBinary_fget_true (d : Descriptor) (f : Filters) (k : String)
    (h : fget (clearBinary d f) k = true) : fget f k = true := by
  unfold clearBinary at h
  by_cases hk : k = "binary"
  · subst hk
    split at h
    · rw [fget_fdel_self] at h
      exact absurd h (by simp)
    · exact h
  · split at h
    · rwa [fget_fdel_other f "binary" k hk] at h
    · exact h

theorem includeFailuresAux_eq_nil (ls : List String) (i : Nat) :
    includeFailuresAux i ls = [] ↔ ∀ l ∈ ls, includeReMatch l = false := by
  induction ls generalizing i with
  | nil => simp [includeFailuresAux]
  | cons hd tl ih =>
    by_cases h : includeReMatch hd = true
    · simp [includeFailuresAux, h]
    · simp [includeFailuresAux, h, ih (i + 1)]

theorem checkSource_eq_none_iff (source : String) :
    checkSource source = none ↔
      ∀ l ∈ utilsSplitLines source, includeReMatch l = false := by
  rw [← includeFailuresAux_eq_nil (utilsSplitLines source) 0]
  unfold checkSource includeFailures
  by_cases he : includeFailuresAux 0 (utilsSplitLines source) = []
  · simp [List.isEmpty_iff, he]
  · simp [List.isEmpty_iff, he]

/-- On the path that reaches the runner (screens pass, cache miss), `compile`
enqueues exactly one job and performs the `cachePut` exactly when the
runner's `okToCache` survived. -/
theorem compileModel_run_spec (d : Descriptor) (badList : List String)
    (cache : List (String × CompileResult)) (source : String)
    (uo : List String) (bo : BackendOptions) (f : Filters)
    (cfn : String) (mas : Nat) (w : World)
    (hbad : findBadOptions badList uo = [])
    (hsrc : checkSource source = none)
    (hmiss : cacheLookup cache (fingerprint d source uo bo (clearBinary d f)) = none) :
    (compileModel d badList cache source uo bo f cfn mas w).enqueued = true ∧
    (compileModel d badList cache source uo bo f cfn mas w).cacheInsert.isSome
      = w.runner.okToCache ∧
    (w.runner.okToCache = false →
      (compileModel d badList cache source uo bo f cfn mas w).finalCache = cache) := by
  have hok : (finishResult d w (clearBinary d f)
      (compileJob d w uo (clearBinary d f) bo cfn mas)).okToCache
      = w.runner.okToCache := by
    rw [finishResult_okToCache, compileJob_okToCache]
  unfold compileModel
  simp only [hbad, hsrc, hmiss, ne_eq, not_true_eq_false, if_false]
  simp only [hok]
  cases hcase : w.runner.okToCache <;> simp [hcase]

theorem runStep_okToCache_false (m : Nat) (st : StreamsState) (ev : RunEv)
    (h : st.okToCache = false) : (runStep m st ev).okToCache = false := by
  cases ev <;> unfold runStep onData onTimeout <;> dsimp only <;> repeat' split
  all_goals simp [h]

theorem foldl_okToCache_false (m : Nat) (trace : List RunEv) (st : StreamsState)
    (h : st.okToCache = false) :
    (trace.foldl (runStep m) st).okToCache = false := by
  induction trace generalizing st with
  | nil => exact h
  | cons ev rest ih =>
    exact ih (runStep m st ev) (runStep_okToCache_false m st ev h)

theorem runStep_stderr_extend (m : Nat) (st : StreamsState) (ev : RunEv) :
    ∃ t, (runStep m st ev).stderr = st.stderr ++ t := by
  cases ev with
  | outData s =>
    refine ⟨"", ?_⟩
    simp only [runStep, onData, if_true]
    repeat' split
    all_goals simp
  | errData s =>
    simp only [runStep, onData, if_true, Bool.false_eq_true, if_false]
    split
    · exact ⟨"", by simp⟩
    · split
      · exact ⟨truncMarker, by simp⟩
      · exact ⟨s, by simp⟩
  | timeoutFired => exact ⟨timeoutMsg, rfl⟩

theorem foldl_stderr_extend (m : Nat) (trace : List RunEv) (st : StreamsState) :
    ∃ t, (trace.foldl (runStep m) st).stderr = st.stderr ++ t := by
  induction trace generalizing st with
  | nil => exact ⟨"", (String.append_empty _).symm⟩
  | cons ev rest ih =>
    obtain ⟨u, hu⟩ := runStep_stderr_extend m st ev
    obtain ⟨t, ht⟩ := ih (runStep m st ev)
    refine ⟨u ++ t, ?_⟩
    rw [List.foldl_cons, ht, hu, String.append_assoc]

theorem runStep_killCount_mono (m : Nat) (st : StreamsState) (ev : RunEv) :
    st.killCount ≤ (runStep m st ev).killCount := by
  cases ev <;> unfold runStep onData onTimeout <;> dsimp only <;> repeat' split
  all_goals simp [Nat.le_succ]

theorem foldl_killCount_mono (m : Nat) (trace : List RunEv) (st : StreamsState) :
    st.killCount ≤ (trace.foldl (runStep m) st).killCount := by
  induction trace generalizing st with
  | nil => exact Nat.le_refl _
  | cons ev rest ih =>
    exact Nat.le_trans (runStep_killCount_mono m st ev) (ih (runStep m st ev))

/-- After a timeout event anywhere in the trace, the final state has
`okToCache = false`, at least one `kill()` invocation, and the kill message
spliced into stderr. -/
theorem foldl_timeout_spec (m : Nat) (trace : List RunEv) (st : StreamsState)
    (h : RunEv.timeoutFired ∈ trace) :
    (trace.foldl (runStep m) st).okToCache = false ∧
    1 ≤ (trace.foldl (runStep m) st).killCount ∧
    ∃ s1 s2, (trace.foldl (runStep m) st).stderr = s1 ++ timeoutMsg ++ s2 := by
  obtain ⟨t1, t2, rfl⟩ := List.append_of_mem h
  rw [List.foldl_append]
  set st1 := t1.foldl (runStep m) st with hst1
  show (List.foldl (runStep m) st1 (RunEv.timeoutFired :: t2)).okToCache = false ∧ _
  rw [List.foldl_cons]
  have hstep : runStep m st1 RunEv.timeoutFired = onTimeout st1 := rfl
  refine ⟨?_, ?_, ?_⟩
  · exact foldl_okToCache_false m t2 _ (by rw [hstep]; rfl)
  · refine Nat.le_trans ?_ (foldl_killCount_mono m t2 _)
    rw [hstep]
    show 1 ≤ st1.killCount + 1
    exact Nat.le_add_left 1 _
  · obtain ⟨t, ht⟩ := foldl_stderr_extend m t2 (runStep m st1 RunEv.timeoutFired)
    refine ⟨st1.stderr, t, ?_⟩
    rw [ht, hstep]
    show st1.stderr ++ timeoutMsg ++ t = st1.stderr ++ timeoutMsg ++ t
    rfl

/-- One `data` event preserves the output-cap invariant: while untruncated
each stream is at most `m + c` long (`c` bounding the chunk), afterwards at
most the marker was added on top, the marker count tracks the truncated
flag, and truncation implies a `kill()`. -/
theorem onData_inv (m c : Nat) (st : StreamsState) (isOut : Bool) (s : String)
    (hs : s.length ≤ c)
    (h1 : st.truncated = false → st.stdout.length ≤ m + c ∧ st.stderr.length ≤ m + c)
    (h2 : st.stdout.length ≤ m + c + truncMarker.length ∧
          st.stderr.length ≤ m + c + truncMarker.length)
    (h3 : st.markerCount = if st.truncated then 1 else 0)
    (h4 : st.truncated = true → 1 ≤ st.killCount) :
    ((onData m st isOut s).truncated = false →
      (onData m st isOut s).stdout.length ≤ m + c ∧
      (onData m st isOut s).stderr.length ≤ m + c) ∧
    ((onData m st isOut s).stdout.length ≤ m + c + truncMarker.length ∧
     (onData m st isOut s).stderr.length ≤ m + c + truncMarker.length) ∧
    ((onData m st isOut s).markerCount = if (onData m st isOut s).truncated then 1 else 0) ∧
    ((onData m st isOut s).truncated = true → 1 ≤ (onData m st isOut s).killCount) := by
  by_cases ht : st.truncated = true
  · have he : onData m st isOut s = st := by
      unfold onData
      rw [if_pos ht]
    rw [he]
    exact ⟨h1, h2, h3, h4⟩
  · have ht' : st.truncated = false := by
      simpa using ht
    obtain ⟨ho, he⟩ := h1 ht'
    cases isOut with
    | true =>
      by_cases hl : st.stdout.length > m
      · have heq : onData m st true s =
            { st with stdout := st.stdout ++ truncMarker, truncated := true,
                      killCount := st.killCount + 1,
                      markerCount := st.markerCount + 1 } := by
          unfold onData
          rw [if_neg ht]
          simp only [if_true]
          rw [if_pos hl]
        rw [heq]
        refine ⟨?_, ⟨?_, ?_⟩, ?_, ?_⟩
        · intro hc
          exact absurd hc (by simp)
        · rw [String.length_append]
          exact Nat.add_le_add_right ho _
        · exact Nat.le_trans he (Nat.le_add_right _ _)
        · simp [h3, ht']
        · intro _
          exact Nat.le_add_left 1 _
      · have hl' : st.stdout.length ≤ m := Nat.le_of_not_lt hl
        have heq : onData m st true s = { st with stdout := st.stdout ++ s } := by
          unfold onData
          rw [if_neg ht]
          simp only [if_true]
          rw [if_neg hl]
        rw [heq]
        have hlen : (st.stdout ++ s).length ≤ m + c := by
          rw [String.length_append]
          exact Nat.add_le_add hl' hs
        refine ⟨fun _ => ⟨hlen, he⟩, ⟨?_, h2.2⟩, h3, h4⟩
        · exact Nat.le_trans hlen (Nat.le_add_right _ _)
    | false =>
      by_cases hl : st.stderr.length > m
      · have heq : onData m st false s =
            { st with stderr := st.stderr ++ truncMarker, truncated := true,
                      killCount := st.killCount + 1,
                      markerCount := st.markerCount + 1 } := by
          unfold onData
          rw [if_neg ht]
          simp only [Bool.false_eq_true, if_false]
          rw [if_pos hl]
        rw [heq]
        refine ⟨?_, ⟨?_, ?_⟩, ?_, ?_⟩
        · intro hc
          exact absurd hc (by simp)
        · exact Nat.le_trans ho (Nat.le_add_right _ _)
        · rw [String.length_append]
          exact Nat.add_le_add_right he _
        · simp [h3, ht']
        · intro _
          exact Nat.le_add_left 1 _
      · have hl' : st.stderr.length ≤ m := Nat.le_of_not_lt hl
        have heq : onData m st false s = { st with stderr := st.stderr ++ s } := by
          unfold onData
          rw [if_neg ht]
          simp only [Bool.false_eq_true, if_false]
          rw [if_neg hl]
        rw [heq]
        have hlen : (st.stderr ++ s).length ≤ m + c := by
          rw [String.length_append]
          exact Nat.add_le_add hl' hs
        refine ⟨fun _ => ⟨ho, hlen⟩, ⟨h2.1, ?_⟩, h3, h4⟩
        · exact Nat.le_trans hlen (Nat.le_add_right _ _)

/-- The output-cap invariant holds of the whole execution when every chunk
is bounded by `c` and no timeout fires. -/
theorem foldl_cap_inv (m c : Nat) (trace : List RunEv) (st : StreamsState)
    (hchunk : ∀ s, (RunEv.outData s ∈ trace ∨ RunEv.errData s ∈ trace) → s.length ≤ c)
    (hnt : RunEv.timeoutFired ∉ trace)
    (h1 : st.truncated = false → st.stdout.length ≤ m + c ∧ st.stderr.length ≤ m + c)
    (h2 : st.stdout.length ≤ m + c + truncMarker.length ∧
          st.stderr.length ≤ m + c + truncMarker.length)
    (h3 : st.markerCount = if st.truncated then 1 else 0)
    (h4 : st.truncated = true → 1 ≤ st.killCount) :
    ((trace.foldl (runStep m) st).truncated = false →
      (trace.foldl (runStep m) st).stdout.length ≤ m + c ∧
      (trace.foldl (runStep m) st).stderr.length ≤ m + c) ∧
    ((trace.foldl (runStep m) st).stdout.length ≤ m + c + truncMarker.length ∧
     (trace.foldl (runStep m) st).stderr.length ≤ m + c + truncMarker.length) ∧
    ((trace.foldl (runStep m) st).markerCount =
      if (trace.foldl (runStep m) st).truncated then 1 else 0) ∧
    ((trace.foldl (runStep m) st).truncated = true →
      1 ≤ (trace.foldl (runStep m) st).killCount) := by
  induction trace generalizing st with
  | nil => exact ⟨h1, h2, h3, h4⟩
  | cons ev rest ih =>
    have hchunk' : ∀ s, (RunEv.outData s ∈ rest ∨ RunEv.errData s ∈ rest) → s.length ≤ c := by
      intro s hm
      exact hchunk s (by
        cases hm with
        | inl hm => exact Or.inl (List.mem_cons_of_mem _ hm)
        | inr hm => exact Or.inr (List.mem_cons_of_mem _ hm))
    have hnt' : RunEv.timeoutFired ∉ rest := fun hc => hnt (List.mem_cons_of_mem _ hc)
    rw [List.foldl_cons]
    cases ev with
    | outData s =>
      have hs : s.length ≤ c := hchunk s (Or.inl (List.mem_cons_self _ _))
      obtain ⟨g1, g2, g3, g4⟩ := onData_inv m c st true s hs h1 h2 h3 h4
      exact ih (onData m st true s) hchunk' hnt' g1 g2 g3 g4
    | errData s =>
      have hs : s.length ≤ c := hchunk s (Or.inr (List.mem_cons_self _ _))
      obtain ⟨g1, g2, g3, g4⟩ := onData_inv m c st false s hs h1 h2 h3 h4
      exact ih (onData m st false s) hchunk' hnt' g1 g2 g3 g4
    | timeoutFired =>
      exact absurd (List.mem_cons_self _ _) hnt

theorem retryAux_attempts_le {E A : Type} (o : Nat → Except E A) (m : Nat) :
    ∀ (fuel a : Nat), (retryAux o m fuel a).2 ≤ max (a + 1) m := by
  intro fuel
  induction fuel with
  | zero =>
    intro a
    unfold retryAux
    cases o a with
    | ok v => exact Nat.le_max_left _ _
    | error e =>
      dsimp only
      by_cases h : a + 1 < m
      · rw [if_pos h]
        exact Nat.le_max_left _ _
      · rw [if_neg h]
        exact Nat.le_max_left _ _
  | succ fuel ih =>
    intro a
    unfold retryAux
    cases o a with
    | ok v => exact Nat.le_max_left _ _
    | error e =>
      dsimp only
      by_cases h : a + 1 < m
      · rw [if_pos h]
        refine Nat.le_trans (ih (a + 1)) ?_
        have hm : max (a + 1 + 1) m = m := Nat.max_eq_right h
        rw [hm]
        exact Nat.le_max_right _ _
      · rw [if_neg h]
        exact Nat.le_max_left _ _

theorem retryAux_all_error {E A : Type} (o : Nat → Except E A) (m : Nat)
    (h : ∀ i, ∃ e, o i = Except.error e) :
    ∀ (fuel a : Nat), ∃ e, (retryAux o m fuel a).1 = Except.error e := by
  intro fuel
  induction fuel with
  | zero =>
    intro a
    obtain ⟨e, he⟩ := h a
    unfold retryAux
    rw [he]
    dsimp only
    by_cases hc : a + 1 < m
    · rw [if_pos hc]
      exact ⟨e, rfl⟩
    · rw [if_neg hc]
      exact ⟨e, rfl⟩
  | succ fuel ih =>
    intro a
    obtain ⟨e, he⟩ := h a
    unfold retryAux
    rw [he]
    dsimp only
    by_cases hc : a + 1 < m
    · rw [if_pos hc]
      exact ih (a + 1)
    · rw [if_neg hc]
      exact ⟨e, rfl⟩

theorem retryAux_ok {E A : Type} (o : Nat → Except E A) (m : Nat) :
    ∀ (fuel a : Nat) (v : A), (retryAux o m fuel a).1 = Except.ok v →
      ∃ i, o i = Except.ok v := by
  intro fuel
  induction fuel with
  | zero =>
    intro a v hv
    unfold retryAux at hv
    cases ho : o a with
    | ok w =>
      rw [ho] at hv
      refine ⟨a, ?_⟩
      rw [ho]
      simpa using hv
    | error e =>
      rw [ho] at hv
      dsimp only at hv
      by_cases hc : a + 1 < m
      · rw [if_pos hc] at hv
        exact absurd hv (by simp)
      · rw [if_neg hc] at hv
        exact absurd hv (by simp)
  | succ fuel ih =>
    intro a v hv
    unfold retryAux at hv
    cases ho : o a with
    | ok w =>
      rw [ho] at hv
      refine ⟨a, ?_⟩
      rw [ho]
      simpa using hv
    | error e =>
      rw [ho] at hv
      dsimp only at hv
      by_cases hc : a + 1 < m
      · rw [if_pos hc] at hv
        exact ih (a + 1) v hv
      · rw [if_neg hc] at hv
        exact absurd hv (by simp)

theorem checkSource_isSome_match (source : String) (e : String)
    (h : checkSource source = some e) :
    ∃ l ∈ utilsSplitLines source, includeReMatch l = true := by
  by_contra hno
  push_neg at hno
  have hall : ∀ l ∈ utilsSplitLines source, includeReMatch l = false := by
    intro l hl
    simpa using hno l hl
  rw [(checkSource_eq_none_iff source).mpr hall] at h
  cases h

theorem checkSource_some_msg (source : String) (e : String)
    (h : checkSource source = some e) :
    e = "\n".intercalate (includeFailures source) := by
  unfold checkSource at h
  by_cases he : (includeFailures source).isEmpty = true
  · rw [if_pos he] at h
    cases h
  · rw [if_neg he] at h
    cases h
    rfl

theorem compileJob_sandboxRan_imp (d : Descriptor) (w : World) (uo : List String)
    (f : Filters) (bo : BackendOptions) (cfn : String) (mas : Nat)
    (h : (compileJob d w uo f bo cfn mas).2.2 = true) :
    (d.supportsExecute && fget f "binary" && fget f "link" && fget f "execute") = true := by
  unfold compileJob at h
  dsimp only at h
  split at h
  · exact absurd h (by simp)
  · rw [postProcessModel_sandboxRan] at h
    exact h

theorem compileModel_sandboxRan_imp (d : Descriptor) (badList : List String)
    (cache : List (String × CompileResult)) (source : String)
    (uo : List String) (bo : BackendOptions) (f : Filters)
    (cfn : String) (mas : Nat) (w : World)
    (h : (compileModel d badList cache source uo bo f cfn mas w).sandboxRan = true) :
    (d.supportsExecute && fget (clearBinary d f) "binary"
      && fget (clearBinary d f) "link" && fget (clearBinary d f) "execute") = true := by
  unfold compileModel at h
  dsimp only at h
  by_cases hbad : findBadOptions badList uo ≠ []
  · rw [if_pos hbad] at h
    exact absurd h (by simp)
  · rw [if_neg hbad] at h
    split at h
    · exact absurd h (by simp)
    · split at h
      · exact absurd h (by simp)
      · exact compileJob_sandboxRan_imp d w uo (clearBinary d f) bo cfn mas h

theorem fetchRemote_attempts (host : String) (port : Nat)
    (outcomes : Nat → Except String (List Descriptor)) (m : Nat) :
    (fetchRemote host port outcomes m).2 =
      (retryPromise (fun i => (outcomes i).map
        (fun cs => cs.map (mapRemoteCompiler host port))) m).2 := by
  unfold fetchRemote
  dsimp only
  split
  · rename_i cs n heq
    rw [heq]
  · rename_i e n heq
    rw [heq]

/-! ## Claim theorems -/

/-- C9: when the sandbox promise rejects, `execBinary` still resolves with
the main compile result; its `execResult` carries empty stdout, the raw
error message as stderr, and null status and signal, and every other field
of the main result is unchanged. -/
theorem c9_sandbox_failure_execResult (r : CompileResult) (e : SbError) :
    execBinary r (.err e) =
      { r with
        execResult := some ⟨[], StderrVal.raw e.message, none, none⟩ } := rfl

/-- C10 counterexample: an API-style request without a `?filters=` query but
with `?addFilters=binary` — a request that, in the claim's terms, supplies
no filter set — does not run with the default filter set. -/
theorem c10_default_filters_counterexample :
    apiRequestFilters "" "binary" "" ≠ getDefaultFilters := by
  decide

/-- C10 (amended): a JSON request without `options.filters`, and an API
request with no filter-related query parameters at all, run with the default
filter set `intel, commentOnly, directives, labels := true` and
`optOutput := false`; `addFilters`/`removeFilters` otherwise modify that
default set. -/
theorem c10_default_filters :
    jsonRequestFilters none = getDefaultFilters ∧
    apiRequestFilters "" "" "" = getDefaultFilters ∧
    getDefaultFilters = [("intel", true), ("commentOnly", true),
      ("directives", true), ("labels", true), ("optOutput", false)] := by
  refine ⟨rfl, ?_, rfl⟩
  decide

set_option maxRecDepth 8000 in
/-- C5 counterexample: with a descriptor that supports opt records and a
request with `produceOptInfo`, the assembled argument vector differs from
the claimed order (which places the opt-record flag after the user
options): the code emits the opt flag before the user options. -/
theorem c5_argument_order_counterexample :
    prepareArguments optDesc ["-O2"] [("intel", true)] ⟨false, true⟩ "in.cpp" "out" =
      ["-g", "-o", "out", "-mllvm", "--x86-asm-syntax=intel", "-S", "-Wall",
       "-fsave-optimization-record", "-O2", "in.cpp"] ∧
    prepareArguments optDesc ["-O2"] [("intel", true)] ⟨false, true⟩ "in.cpp" "out" ≠
      prepareArgumentsClaimed optDesc ["-O2"] [("intel", true)] ⟨false, true⟩
        "in.cpp" "out" := by
  constructor
  · rfl
  · decide

/-- C5 (amended): the argument vector is assembled as `-g -o <output>`, then
the intel-asm flag (when `filters.intel` and not `filters.binary` and the
descriptor defines one), then `-c` (binary without link) or `-S` (not
binary), then the descriptor's default options, then — when
`backendOptions.produceOptInfo` is set and the descriptor supports opt
records — the opt-record flag, then the user options, then the input
filename. -/
theorem c5_argument_order (d : Descriptor) (uo : List String) (f : Filters)
    (bo : BackendOptions) (inF outF : String) :
    prepareArguments d uo f bo inF outF =
      ["-g", "-o", outF]
      ++ (if d.intelAsm ≠ "" && fget f "intel" && !fget f "binary" then
            jsSplit ' ' d.intelAsm else [])
      ++ (if fget f "binary" then (if fget f "link" then [] else ["-c"])
          else ["-S"])
      ++ (if d.options ≠ "" then jsSplit ' ' d.options else [])
      ++ (if d.supportsOptOutput && bo.produceOptInfo then [d.optArg] else [])
      ++ uo ++ [inF] := by
  unfold prepareArguments optionsForFilter
  repeat' split
  all_goals simp_all

set_option maxRecDepth 8000 in
/-- C4 counterexample: two descriptors that differ only in the discovered
version string fingerprint differently, so the cache key does not exclude
the discovered version. -/
theorem c4_fingerprint_version_counterexample :
    eraseVersion gccDesc = eraseVersion gccDescV2 ∧
    fingerprint gccDesc "int f;" [] noBackendOptions [] ≠
      fingerprint gccDescV2 "int f;" [] noBackendOptions [] := by
  constructor
  · rfl
  · decide

/-- C4 (amended): the cache key is a deterministic serialization of the full
descriptor — including the discovered version — together with source,
options, backendOptions and filters; on a cache hit, `compile` resolves with
the cached result without enqueueing a job (and hence without spawning any
child), and the cache is unchanged. -/
theorem c4_cache_hit_returns_cached (d : Descriptor) (badList : List String)
    (cache : List (String × CompileResult)) (source : String)
    (uo : List String) (bo : BackendOptions) (f : Filters)
    (cfn : String) (mas : Nat) (w : World) (r : CompileResult)
    (hbad : findBadOptions badList uo = [])
    (hsrc : checkSource source = none)
    (hhit : cacheLookup cache (fingerprint d source uo bo (clearBinary d f)) = some r) :
    (compileModel d badList cache source uo bo f cfn mas w).reply = .done r ∧
    (compileModel d badList cache source uo bo f cfn mas w).enqueued = false ∧
    (compileModel d badList cache source uo bo f cfn mas w).cacheInsert = none ∧
    (compileModel d badList cache source uo bo f cfn mas w).finalCache = cache := by
  unfold compileModel
  simp [hbad, hsrc, hhit]

set_option maxRecDepth 8000 in
/-- C4 witness: a concrete cache hit returning the stored result without
enqueueing. -/
theorem c4_cache_hit_returns_cached_witness :
    (compileModel gccDesc [] hitCache "int f;" [] noBackendOptions []
        "example.cpp" 100 failWorld).reply = .done cachedResult ∧
    (compileModel gccDesc [] hitCache "int f;" [] noBackendOptions []
        "example.cpp" 100 failWorld).enqueued = false := by
  have h := c4_cache_hit_returns_cached gccDesc [] hitCache "int f;" []
    noBackendOptions [] "example.cpp" 100 failWorld cachedResult rfl rfl rfl
  exact ⟨h.1, h.2.1⟩

/-- C6: provided the options pass the bad-option screen, `compile` rejects
exactly when some source line matches the preprocessor-inclusion pattern;
the rejection message joins one diagnostic
`<stdin>:<line>:1: no absolute or relative includes please` per offending
line, and a rejected request consults no cache, enqueues no job, and leaves
the cache unchanged. -/
theorem c6_include_screen (d : Descriptor) (badList : List String)
    (cache : List (String × CompileResult)) (source : String)
    (uo : List String) (bo : BackendOptions) (f : Filters)
    (cfn : String) (mas : Nat) (w : World)
    (hbad : findBadOptions badList uo = []) :
    ((∃ l ∈ utilsSplitLines source, includeReMatch l = true) ↔
      ∃ e, (compileModel d badList cache source uo bo f cfn mas w).reply = .reject e) ∧
    (∀ e, (compileModel d badList cache source uo bo f cfn mas w).reply = .reject e →
      e = "\n".intercalate (includeFailures source) ∧
      (compileModel d badList cache source uo bo f cfn mas w).cacheConsulted = false ∧
      (compileModel d badList cache source uo bo f cfn mas w).enqueued = false ∧
      (compileModel d badList cache source uo bo f cfn mas w).finalCache = cache) := by
  unfold compileModel
  simp only [hbad, ne_eq, not_true_eq_false, if_false]
  cases hcs : checkSource source with
  | some err =>
    simp only [hcs]
    refine ⟨⟨fun _ => ⟨err, rfl⟩, fun _ => checkSource_isSome_match source err hcs⟩, ?_⟩
    intro e he
    have he' : err = e := by
      cases he
      rfl
    refine ⟨?_, trivial, trivial, trivial⟩
    rw [← he']
    exact checkSource_some_msg source err hcs
  | none =>
    simp only [hcs]
    have hnomatch : ∀ l ∈ utilsSplitLines source, includeReMatch l = false :=
      (checkSource_eq_none_iff source).mp hcs
    cases hcl : cacheLookup cache (fingerprint d source uo bo (clearBinary d f)) with
    | some cached =>
      simp only [hcl]
      constructor
      · constructor
        · rintro ⟨l, hl, hm⟩
          rw [hnomatch l hl] at hm
          cases hm
        · rintro ⟨e, he⟩
          cases he
      · intro e he
        cases he
    | none =>
      simp only [hcl]
      constructor
      · constructor
        · rintro ⟨l, hl, hm⟩
          rw [hnomatch l hl] at hm
          cases hm
        · rintro ⟨e, he⟩
          cases he
      · intro e he
        cases he

/-- C6 witness: the source `#include "/etc/passwd"` is rejected with the
exact diagnostic before the cache is consulted or a job enqueued. -/
theorem c6_include_screen_witness :
    (compileModel gccDesc [] [] "#include \"/etc/passwd\"" [] noBackendOptions []
        "example.cpp" 100 okWorld).reply =
      .reject "<stdin>:1:1: no absolute or relative includes please" ∧
    (compileModel gccDesc [] [] "#include \"/etc/passwd\"" [] noBackendOptions []
        "example.cpp" 100 okWorld).cacheConsulted = false ∧
    (compileModel gccDesc [] [] "#include \"/etc/passwd\"" [] noBackendOptions []
        "example.cpp" 100 okWorld).enqueued = false := by
  have h := c6_include_screen gccDesc [] [] "#include \"/etc/passwd\"" []
    noBackendOptions [] "example.cpp" 100 okWorld rfl
  have he : (compileModel gccDesc [] [] "#include \"/etc/passwd\"" [] noBackendOptions []
      "example.cpp" 100 okWorld).reply =
        .reject "<stdin>:1:1: no absolute or relative includes please" := by
    rfl
  exact ⟨he, (h.2 _ he).2.1, (h.2 _ he).2.2.1⟩

set_option maxRecDepth 8000 in
/-- C1 counterexample: a main compile that exits with status 1 (no timeout,
so the runner reports `okToCache = true`) is nevertheless inserted into the
result cache, refuting the claim that a non-zero exit status prevents
caching. -/
theorem c1_failed_compile_cached_counterexample :
    failWorld.runner.status = some 1 ∧ failWorld.runner.signal = none ∧
    (compileModel gccDesc [] [] "int main;" [] noBackendOptions [("intel", true)]
        "example.cpp" 100 failWorld).cacheInsert.isSome = true :=
  ⟨rfl, rfl, rfl⟩

/-- C1 (amended): on the path that reaches the runner, the result is
inserted into the cache exactly when the runner reported `okToCache = true`
— which is cleared only by the timeout, not by a non-zero exit status, a
signal, or truncation; when `okToCache = false` the cache is unchanged. -/
theorem c1_cache_insert_iff_okToCache (d : Descriptor) (badList : List String)
    (cache : List (String × CompileResult)) (source : String)
    (uo : List String) (bo : BackendOptions) (f : Filters)
    (cfn : String) (mas : Nat) (w : World)
    (hbad : findBadOptions badList uo = [])
    (hsrc : checkSource source = none)
    (hmiss : cacheLookup cache (fingerprint d source uo bo (clearBinary d f)) = none) :
    (compileModel d badList cache source uo bo f cfn mas w).enqueued = true ∧
    (compileModel d badList cache source uo bo f cfn mas w).cacheInsert.isSome
      = w.runner.okToCache ∧
    (w.runner.okToCache = false →
      (compileModel d badList cache source uo bo f cfn mas w).finalCache = cache) :=
  compileModel_run_spec d badList cache source uo bo f cfn mas w hbad hsrc hmiss

set_option maxRecDepth 8000 in
/-- C1 witness: at the concrete failing compile, a job is enqueued and the
insertion flag matches the runner's `okToCache`. -/
theorem c1_cache_insert_iff_okToCache_witness :
    (compileModel gccDesc [] [] "int main;" [] noBackendOptions [("intel", true)]
        "example.cpp" 100 failWorld).enqueued = true ∧
    (compileModel gccDesc [] [] "int main;" [] noBackendOptions [("intel", true)]
        "example.cpp" 100 failWorld).cacheInsert.isSome
      = failWorld.runner.okToCache := by
  have h := c1_cache_insert_iff_okToCache gccDesc [] [] "int main;" []
    noBackendOptions [("intel", true)] "example.cpp" 100 failWorld rfl rfl rfl
  exact ⟨h.1, h.2.1⟩

/-- C7: the FilterSet invariants.  (1) A sandboxed execution is started only
when the request's `binary`, `link` and `execute` filters are all set.
(2) When the chosen compiler does not support binary output, the `binary`
flag is cleared before compiling.  (3) When `binary` is set, the `intel`
filter contributes no compiler flag: the assembled options do not depend on
it. -/
theorem c7_filter_invariants (d : Descriptor) (badList : List String)
    (cache : List (String × CompileResult)) (source : String)
    (uo : List String) (bo : BackendOptions) (f : Filters)
    (cfn : String) (mas : Nat) (w : World) :
    ((compileModel d badList cache source uo bo f cfn mas w).sandboxRan = true →
      fget f "binary" = true ∧ fget f "link" = true ∧ fget f "execute" = true) ∧
    (∀ (d' : Descriptor) (f' : Filters), d'.supportsBinary = false →
      fget (clearBinary d' f') "binary" = false) ∧
    (∀ (d' : Descriptor) (f' : Filters) (outF : String) (v : Bool),
      fget f' "binary" = true →
      optionsForFilter d' f' outF = optionsForFilter d' (fset f' "intel" v) outF) := by
  refine ⟨?_, ?_, ?_⟩
  · intro hs
    have h := compileModel_sandboxRan_imp d badList cache source uo bo f cfn mas w hs
    simp only [Bool.and_eq_true] at h
    obtain ⟨⟨⟨_, hb⟩, hl⟩, he⟩ := h
    exact ⟨clearBinary_fget_true d f "binary" hb, clearBinary_fget_true d f "link" hl,
      clearBinary_fget_true d f "execute" he⟩
  · intro d' f' hns
    exact clearBinary_binary_of_unsupported d' f' hns
  · intro d' f' outF v h
    have hb : fget (fset f' "intel" v) "binary" = fget f' "binary" :=
      fget_fset_other f' "intel" v "binary" (by decide)
    have hl : fget (fset f' "intel" v) "link" = fget f' "link" :=
      fget_fset_other f' "intel" v "link" (by decide)
    unfold optionsForFilter
    rw [hb, hl, h]
    simp

/-- C7 witness: a concrete compile in which the sandbox ran (so the three
filters are set), a concrete unsupported-binary clamp, and a concrete
intel-independence instance. -/
theorem c7_filter_invariants_witness :
    (fget binExecFilters "binary" = true ∧ fget binExecFilters "link" = true ∧
      fget binExecFilters "execute" = true) ∧
    fget (clearBinary { gccDesc with supportsBinary := false } binExecFilters)
      "binary" = false ∧
    optionsForFilter gccDesc binExecFilters "out" =
      optionsForFilter gccDesc (fset binExecFilters "intel" true) "out" := by
  have h := c7_filter_invariants execDesc [] [] "int main;" [] noBackendOptions
    binExecFilters "example.cpp" 100 okWorld
  exact ⟨h.1 rfl, h.2.1 { gccDesc with supportsBinary := false } binExecFilters rfl,
    h.2.2 gccDesc binExecFilters "out" true rfl⟩

/-- C2 counterexample: with a 3-byte cap, a 10-byte chunk is accepted while
the stream is still under the cap, and the truncation marker lands on top,
so the captured stdout (22 bytes) exceeds the configured cap. -/
theorem c2_output_cap_counterexample :
    effMaxOutput capOptions = 3 ∧
    effMaxOutput capOptions <
      (executeModel capOptions capTrace none (some "SIGTERM")).stdout.length := by
  constructor
  · rfl
  · decide

/-- C2 (amended): when every delivered chunk is at most `c` bytes and no
timeout fires, each captured stream is bounded by the cap plus one chunk
plus the marker (`maxOutput + c + 12`) — it can exceed the cap itself;
the `\n[Truncated]` marker is appended exactly once, precisely when the
internal truncated flag is set; and truncation invokes the process-tree
kill.  The resolved result carries no `truncated` field at all. -/
theorem c2_output_cap (o : ExecOptions) (trace : List RunEv)
    (code : Option Int) (sig : Option String) (c : Nat)
    (hchunk : ∀ s, (RunEv.outData s ∈ trace ∨ RunEv.errData s ∈ trace) → s.length ≤ c)
    (hnt : RunEv.timeoutFired ∉ trace) :
    (executeModel o trace code sig).stdout.length
      ≤ effMaxOutput o + c + truncMarker.length ∧
    (executeModel o trace code sig).stderr.length
      ≤ effMaxOutput o + c + truncMarker.length ∧
    ((executeStreams o trace).markerCount
      = if (executeStreams o trace).truncated then 1 else 0) ∧
    ((executeStreams o trace).truncated = true →
      1 ≤ (executeStreams o trace).killCount) := by
  have h := foldl_cap_inv (effMaxOutput o) c trace initialStreams hchunk hnt
    (fun _ => ⟨Nat.zero_le _, Nat.zero_le _⟩) ⟨Nat.zero_le _, Nat.zero_le _⟩
    rfl (by decide)
  exact ⟨h.2.1.1, h.2.1.2, h.2.2.1, h.2.2.2⟩

/-- C2 witness: the bounds at the concrete truncating execution. -/
theorem c2_output_cap_witness :
    (executeModel capOptions capTrace none (some "SIGTERM")).stdout.length
      ≤ effMaxOutput capOptions + 10 + truncMarker.length ∧
    ((executeStreams capOptions capTrace).markerCount
      = if (executeStreams capOptions capTrace).truncated then 1 else 0) := by
  have h := c2_output_cap capOptions capTrace none (some "SIGTERM") 10
    (by
      intro s hs
      rcases hs with hs | hs
      · simp only [capTrace, List.mem_cons, List.not_mem_nil, or_false,
          RunEv.outData.injEq] at hs
        rcases hs with rfl | rfl <;> decide
      · simp [capTrace] at hs)
    (by decide)
  exact ⟨h.1, h.2.2.1⟩

/-- C3: an execution whose trace contains the timeout firing (possible only
when `timeoutMs > 0`) ends with `okToCache = false`, the exact kill message
spliced into stderr, and at least one `kill()` of the process tree; fed into
a compile that reached the runner, such a result is not inserted and the
cache after the call equals the cache before. -/
theorem c3_timeout_never_cached (o : ExecOptions) (trace : List RunEv)
    (code : Option Int) (sig : Option String) (d : Descriptor)
    (badList : List String) (cache : List (String × CompileResult))
    (source : String) (uo : List String) (bo : BackendOptions) (f : Filters)
    (cfn : String) (mas : Nat) (w : World)
    (_hto : 0 < effTimeoutMs o)
    (hev : RunEv.timeoutFired ∈ trace)
    (hw : w.runner = executeModel o trace code sig)
    (hbad : findBadOptions badList uo = [])
    (hsrc : checkSource source = none)
    (hmiss : cacheLookup cache (fingerprint d source uo bo (clearBinary d f)) = none) :
    (executeModel o trace code sig).okToCache = false ∧
    (∃ s1 s2, (executeModel o trace code sig).stderr = s1 ++ timeoutMsg ++ s2) ∧
    1 ≤ (executeStreams o trace).killCount ∧
    (compileModel d badList cache source uo bo f cfn mas w).cacheInsert = none ∧
    (compileModel d badList cache source uo bo f cfn mas w).finalCache = cache := by
  obtain ⟨hok, hkill, hstderr⟩ :=
    foldl_timeout_spec (effMaxOutput o) trace initialStreams hev
  have hspec := compileModel_run_spec d badList cache source uo bo f cfn mas w
    hbad hsrc hmiss
  have hrok : w.runner.okToCache = false := by
    rw [hw]
    exact hok
  have hnone : (compileModel d badList cache source uo bo f cfn mas w).cacheInsert
      = none := by
    have hi := hspec.2.1
    rw [hrok] at hi
    cases hin : (compileModel d badList cache source uo bo f cfn mas w).cacheInsert with
    | none => rfl
    | some kv =>
      rw [hin] at hi
      cases hi
  exact ⟨hok, hstderr, hkill, hnone, hspec.2.2 hrok⟩

/-- C3 witness: the concrete timed-out execution and its compile. -/
theorem c3_timeout_never_cached_witness :
    (executeModel timedOptions [RunEv.timeoutFired] none (some "SIGTERM")).okToCache
      = false ∧
    (compileModel gccDesc [] [] "int main;" [] noBackendOptions []
        "example.cpp" 100 timeoutWorld).cacheInsert = none ∧
    (compileModel gccDesc [] [] "int main;" [] noBackendOptions []
        "example.cpp" 100 timeoutWorld).finalCache = [] := by
  have h := c3_timeout_never_cached timedOptions [RunEv.timeoutFired] none
    (some "SIGTERM") gccDesc [] [] "int main;" [] noBackendOptions []
    "example.cpp" 100 timeoutWorld (by decide) (by decide) rfl rfl rfl rfl
  exact ⟨h.1, h.2.2.2.1, h.2.2.2.2⟩

/-- C8: a `host@port` registry token is served by a GET of
`/api/compilers`; the fetch makes at most `proxyRetries` attempts; every
descriptor obtained from the peer has `exe` nulled out and `remote` set to
`http://host:port`; and when every attempt fails the token contributes an
empty list instead of failing the registry build.  (The fixed
`proxyRetryMs` delay between attempts is real time and outside the
embedding.) -/
theorem c8_peer_fetch (host : String) (port : Nat)
    (outcomes : Nat → Except String (List Descriptor)) (proxyRetries : Nat)
    (hr : 1 ≤ proxyRetries) :
    (remoteRequest host port).path = "/api/compilers" ∧
    (fetchRemote host port outcomes proxyRetries).2 ≤ proxyRetries ∧
    (∀ c ∈ (fetchRemote host port outcomes proxyRetries).1,
      c.exe = none ∧ c.remote = some ("http://" ++ host ++ ":" ++ toString port)) ∧
    ((∀ i, ∃ e, outcomes i = Except.error e) →
      (fetchRemote host port outcomes proxyRetries).1 = []) := by
  refine ⟨rfl, ?_, ?_, ?_⟩
  · rw [fetchRemote_attempts]
    have hle := retryAux_attempts_le
      (fun i => (outcomes i).map (fun cs => cs.map (mapRemoteCompiler host port)))
      proxyRetries proxyRetries 0
    have hm : max (0 + 1) proxyRetries = proxyRetries := Nat.max_eq_right hr
    rw [hm] at hle
    exact hle
  · intro c hc
    unfold fetchRemote at hc
    dsimp only at hc
    split at hc
    · rename_i cs n heq
      have hok : (retryPromise (fun i => (outcomes i).map
          (fun cs => cs.map (mapRemoteCompiler host port))) proxyRetries).1
          = Except.ok cs := by
        rw [heq]
      obtain ⟨i, hi⟩ := retryAux_ok _ proxyRetries proxyRetries 0 cs hok
      cases ho : outcomes i with
      | ok cs0 =>
        rw [ho] at hi
        have hcs : cs = cs0.map (mapRemoteCompiler host port) := by
          have : Except.ok (ε := String) (cs0.map (mapRemoteCompiler host port))
              = Except.ok cs := hi
          cases this
          rfl
        rw [hcs] at hc
        obtain ⟨c0, _, rfl⟩ := List.mem_map.mp hc
        exact ⟨rfl, rfl⟩
      | error e =>
        rw [ho] at hi
        cases hi
    · rename_i e n heq
      cases hc
  · intro hall
    have hall' : ∀ i, ∃ e, (fun i => (outcomes i).map
        (fun cs => cs.map (mapRemoteCompiler host port))) i = Except.error e := by
      intro i
      obtain ⟨e, he⟩ := hall i
      refine ⟨e, ?_⟩
      dsimp only
      rw [he]
      rfl
    obtain ⟨e, he⟩ := retryAux_all_error _ proxyRetries hall' proxyRetries 0
    unfold fetchRemote
    dsimp only
    split
    · rename_i cs n heq
      have hok : (retryAux (fun i => (outcomes i).map
          (fun cs => cs.map (mapRemoteCompiler host port))) proxyRetries proxyRetries 0).1
          = Except.ok cs := by
        show (retryPromise (fun i => (outcomes i).map
          (fun cs => cs.map (mapRemoteCompiler host port))) proxyRetries).1 = _
        rw [heq]
      rw [he] at hok
      cases hok
    · rfl

/-- C8 witness: a dead peer contributes `[]` within the retry budget, and a
live peer's descriptors are rewritten to remote ones. -/
theorem c8_peer_fetch_witness :
    (fetchRemote "peer" 10240 downOutcomes 5).1 = [] ∧
    (fetchRemote "peer" 10240 downOutcomes 5).2 ≤ 5 ∧
    (∀ c ∈ (fetchRemote "peer" 10240 upOutcomes 5).1,
      c.exe = none ∧ c.remote = some ("http://" ++ "peer" ++ ":" ++ toString 10240)) := by
  have h1 := c8_peer_fetch "peer" 10240 downOutcomes 5 (by decide)
  have h2 := c8_peer_fetch "peer" 10240 upOutcomes 5 (by decide)
  exact ⟨h1.2.2.2 (fun i => ⟨"connection refused", rfl⟩), h1.2.1, h2.2.2.1⟩

end CE
